import Mathlib

/-!
# Verification of the postgres-mcp-tools robust transport layer

Shallow embedding of the repository's message-transport subsystem:
* `RobustReadBuffer` (`src/mcp/robust-stdio.ts`): newline framing plus
  per-line JSON-RPC decoding that never raises;
* the error-handling utilities (`src/utils/error-handler.ts`):
  `MCPError`, `ErrorCodes`, `safeJsonParse`, `createTransportError`;
* `RobustHttpTransport` (`src/mcp/robust-http-transport.ts`): connection
  acceptance, per-chunk input processing, broadcast `send`, `close`,
  `createServer`.

Buffers are modelled as lists of characters (the concrete wire content in
every property is ASCII, so one byte is one character); the JavaScript
`undefined` buffer is `Option.none`.  Effects (the `onmessage`/`onerror`/
`onclose` callbacks, bytes written to a client response) are modelled as
logs carried in the state.  Exceptions are modelled with `Except`; a
JavaScript `try`/`catch` becomes a `match` on the `Except` value.
-/

namespace PostgresMcp

/-- A JSON value as produced by the platform's `JSON.parse`.
Numbers keep their source text (no claim compares numeric magnitudes). -/
inductive Json where
  | null : Json
  | bool (b : Bool) : Json
  | num (raw : String) : Json
  | str (s : String) : Json
  | arr (elems : List Json) : Json
  | obj (fields : List (String × Json)) : Json

/-- Look up a field of a JSON object (first occurrence); `none` on
non-objects or missing keys. -/
def Json.getField : Json → String → Option Json
  | .obj fields, k =>
    match fields.find? (fun p => p.1 = k) with
    | some p => some p.2
    | none => none
  | _, _ => none

/-- Natural number denoted by a list of decimal digit characters. -/
def digitsToNat (l : List Char) : Nat :=
  l.foldl (fun a c => a * 10 + (c.toNat - 48)) 0

/-- Whether the float64 value `JSON.parse` assigns to a number literal is
zero.  The literal (grammar `-? int frac? exp?`) denotes the exact
rational `±D × 10^E` with `D` the concatenated integer and fraction
digits and `E` the signed exponent minus the fraction length.  Under
round-to-nearest, ties-to-even, that value converts to float64 zero iff
`|value| ≤ 2^-1075` (half the minimum subnormal; the tie itself rounds
to the even mantissa, which is zero) — so literals such as `1e-324`
underflow to `0` even though their text has a non-zero digit. -/
def numLiteralIsZero (raw : String) : Bool :=
  let cs :=
    match raw.toList with
    | '-' :: r => r
    | r => r
  let intPart := cs.takeWhile Char.isDigit
  let afterInt := cs.dropWhile Char.isDigit
  let (fracPart, afterFrac) :=
    match afterInt with
    | '.' :: r => (r.takeWhile Char.isDigit, r.dropWhile Char.isDigit)
    | _ => (([] : List Char), afterInt)
  let (expNeg, expDigits) :=
    match afterFrac with
    | [] => (false, ([] : List Char))
    | _ :: r =>
      match r with
      | '-' :: d => (true, d)
      | '+' :: d => (false, d)
      | d => (false, d)
  let D := digitsToNat (intPart ++ fracPart)
  let ex := digitsToNat expDigits
  if D = 0 then true
  else if expNeg then
    decide (D * 2 ^ 1075 ≤ 10 ^ (ex + fracPart.length))
  else if fracPart.length ≤ ex then false
  else decide (D * 2 ^ 1075 ≤ 10 ^ (fracPart.length - ex))

/-- JavaScript truthiness of a parsed JSON value: `null`, `false`,
numbers whose float64 value is zero, and the empty string are falsy,
everything else truthy. -/
def Json.jsTruthy : Json → Bool
  | .null => false
  | .bool b => b
  | .num raw => !numLiteralIsZero raw
  | .str s => !s.isEmpty
  | .arr _ => true
  | .obj _ => true

/-- Skip JSON whitespace (space, tab, newline, carriage return). -/
def skipWs (s : List Char) : List Char :=
  match s with
  | [] => []
  | c :: cs => if c = ' ' ∨ c = '\t' ∨ c = '\n' ∨ c = '\r' then skipWs cs else s

/-- Value of a hexadecimal digit (either case), `none` for other
characters; code points 48–57 are `0`–`9`, 97–102 are `a`–`f`, 65–70
are `A`–`F`. -/
def hexVal (c : Char) : Option Nat :=
  let n := c.toNat
  if 48 ≤ n ∧ n ≤ 57 then some (n - 48)
  else if 97 ≤ n ∧ n ≤ 102 then some (n - 87)
  else if 65 ≤ n ∧ n ≤ 70 then some (n - 55)
  else none

/-- Parse the body of a JSON string (the opening quote already consumed),
accumulating decoded characters in reverse.  Handles the JSON escape
sequences and rejects unescaped control characters, as `JSON.parse` does. -/
def parseStringBody : List Char → List Char → Except String (String × List Char)
  | [], _ => .error "unterminated string"
  | '"' :: rest, acc => .ok (String.mk acc.reverse, rest)
  | '\\' :: rest, acc =>
    match rest with
    | '"' :: cs => parseStringBody cs ('"' :: acc)
    | '\\' :: cs => parseStringBody cs ('\\' :: acc)
    | '/' :: cs => parseStringBody cs ('/' :: acc)
    | 'b' :: cs => parseStringBody cs (Char.ofNat 8 :: acc)
    | 'f' :: cs => parseStringBody cs (Char.ofNat 12 :: acc)
    | 'n' :: cs => parseStringBody cs ('\n' :: acc)
    | 'r' :: cs => parseStringBody cs ('\r' :: acc)
    | 't' :: cs => parseStringBody cs ('\t' :: acc)
    | 'u' :: a :: b :: c :: d :: cs =>
      match hexVal a, hexVal b, hexVal c, hexVal d with
      | some ha, some hb, some hc, some hd =>
        parseStringBody cs (Char.ofNat (((ha * 16 + hb) * 16 + hc) * 16 + hd) :: acc)
      | _, _, _, _ => .error "bad unicode escape"
    | _ => .error "bad escape"
  | c :: rest, acc =>
    if c.toNat < 32 then .error "control character in string"
    else parseStringBody rest (c :: acc)

/-- Parse the optional exponent part of a JSON number; `acc` holds the
number text so far. -/
def parseNumExp (acc : List Char) (s : List Char) : Except String (String × List Char) :=
  match s with
  | e :: rest =>
    if e = 'e' || e = 'E' then
      let (sg, rest2) :=
        match rest with
        | c :: r => if c = '+' || c = '-' then ([c], r) else (([] : List Char), rest)
        | [] => ([], [])
      let ds := rest2.takeWhile Char.isDigit
      if ds.isEmpty then .error "invalid number"
      else .ok (String.mk (acc ++ e :: (sg ++ ds)), rest2.dropWhile Char.isDigit)
    else .ok (String.mk acc, s)
  | [] => .ok (String.mk acc, [])

/-- Parse the optional fraction part of a JSON number, then the exponent. -/
def parseNumFrac (acc : List Char) (s : List Char) : Except String (String × List Char) :=
  match s with
  | '.' :: rest =>
    let ds := rest.takeWhile Char.isDigit
    if ds.isEmpty then .error "invalid number"
    else parseNumExp (acc ++ '.' :: ds) (rest.dropWhile Char.isDigit)
  | _ => parseNumExp acc s

/-- Parse a JSON number literal (leading zeros rejected, as in the JSON
grammar), returning its source text. -/
def parseNumber (s : List Char) : Except String (String × List Char) :=
  let (sign, s1) :=
    match s with
    | '-' :: rest => (['-'], rest)
    | _ => (([] : List Char), s)
  match s1 with
  | c :: rest =>
    if c = '0' then parseNumFrac (sign ++ ['0']) rest
    else if c.isDigit then
      parseNumFrac (sign ++ c :: rest.takeWhile Char.isDigit) (rest.dropWhile Char.isDigit)
    else .error "invalid number"
  | [] => .error "invalid number"

mutual

/-- Parse one JSON value.  `fuel` bounds recursion depth; the top-level
entry point supplies more fuel than any input of that length can use. -/
def parseValue : Nat → List Char → Except String (Json × List Char)
  | 0, _ => .error "out of fuel"
  | fuel + 1, s =>
    match skipWs s with
    | 'n' :: 'u' :: 'l' :: 'l' :: rest => .ok (.null, rest)
    | 't' :: 'r' :: 'u' :: 'e' :: rest => .ok (.bool true, rest)
    | 'f' :: 'a' :: 'l' :: 's' :: 'e' :: rest => .ok (.bool false, rest)
    | '"' :: rest =>
      match parseStringBody rest [] with
      | .ok (str, rest2) => .ok (.str str, rest2)
      | .error e => .error e
    | '[' :: rest =>
      match skipWs rest with
      | ']' :: rest2 => .ok (.arr [], rest2)
      | _ => parseElements fuel rest []
    | '{' :: rest =>
      match skipWs rest with
      | '}' :: rest2 => .ok (.obj [], rest2)
      | _ => parseMembers fuel rest []
    | c :: rest =>
      if c = '-' || c.isDigit then
        match parseNumber (c :: rest) with
        | .ok (raw, rest2) => .ok (.num raw, rest2)
        | .error e => .error e
      else .error "unexpected character"
    | [] => .error "unexpected end of input"

/-- Parse the elements of a non-empty JSON array (after `[`). -/
def parseElements : Nat → List Char → List Json → Except String (Json × List Char)
  | 0, _, _ => .error "out of fuel"
  | fuel + 1, s, acc =>
    match parseValue fuel s with
    | .error e => .error e
    | .ok (v, rest) =>
      match skipWs rest with
      | ',' :: rest2 => parseElements fuel rest2 (acc ++ [v])
      | ']' :: rest2 => .ok (.arr (acc ++ [v]), rest2)
      | _ => .error "expected comma or closing bracket"

/-- Parse the members of a non-empty JSON object (after the opening
brace). -/
def parseMembers : Nat → List Char → List (String × Json) →
    Except String (Json × List Char)
  | 0, _, _ => .error "out of fuel"
  | fuel + 1, s, acc =>
    match skipWs s with
    | '"' :: rest =>
      match parseStringBody rest [] with
      | .error e => .error e
      | .ok (key, rest2) =>
        match skipWs rest2 with
        | ':' :: rest3 =>
          match parseValue fuel rest3 with
          | .error e => .error e
          | .ok (v, rest4) =>
            match skipWs rest4 with
            | ',' :: rest5 => parseMembers fuel rest5 (acc ++ [(key, v)])
            | '}' :: rest5 => .ok (.obj (acc ++ [(key, v)]), rest5)
            | _ => .error "expected comma or closing brace"
        | _ => .error "expected colon"
    | _ => .error "expected string key"

end

/-- Modelled from the spec: "Parse the line as generic JSON" —
`JSON.parse` is a JavaScript platform builtin, not repository code.
Succeeds iff the whole input is one JSON document (trailing whitespace
allowed). -/
def jsonParse (s : String) : Except String Json :=
  let cs := s.toList
  match parseValue (2 * cs.length + 4) cs with
  | .error e => .error e
  | .ok (v, rest) =>
    match skipWs rest with
    | [] => .ok v
    | _ => .error "unexpected trailing characters"

/-! ## Error handling utilities (`src/utils/error-handler.ts`) -/

/-- `MCPError` from the error handler: an error code, a message, an
optional context label and an optional original error (kept as text). -/
structure MCPError where
  code : String
  message : String
  context : Option String := none
  originalError : Option String := none
  deriving DecidableEq, Repr

/-- The `ErrorCodes` table (only the members the transport layer uses). -/
def ErrorCodes.SERVER_ERROR : String := "SERVER_ERROR"

def ErrorCodes.TRANSPORT_ERROR : String := "TRANSPORT_ERROR"

def ErrorCodes.PROTOCOL_ERROR : String := "PROTOCOL_ERROR"

def ErrorCodes.JSON_PARSE_ERROR : String := "JSON_PARSE_ERROR"

/-- `handleJsonParseError`: builds the `JSON_PARSE_ERROR` record for a
string that failed to parse, truncating the offending text to 100
characters for the diagnostic message. -/
def handleJsonParseError (data : String) (context : Option String) : MCPError :=
  let truncatedData :=
    if data.length > 100 then
      (String.mk (data.toList.take 100)) ++
        "... (truncated, total length: " ++ toString data.length ++ ")"
    else data
  { code := ErrorCodes.JSON_PARSE_ERROR
    message := "Failed to parse data as JSON: " ++ truncatedData
    context := context }

/-- `createTransportError`: a `TRANSPORT_ERROR` record. -/
def createTransportError (message : String) (context : Option String) : MCPError :=
  { code := ErrorCodes.TRANSPORT_ERROR, message := message, context := context }

/-- `safeJsonParse`: `JSON.parse` inside a `try`/`catch`; returns `none`
(and logs a `JSON_PARSE_ERROR` via `handleJsonParseError`) on a syntax
error instead of raising. -/
def safeJsonParse (data : String) : Option Json :=
  match jsonParse data with
  | .ok j => some j
  | .error _ => none

/-! ## JSON-RPC message schema and serialization

`JSONRPCMessageSchema` and `serializeMessage` live in the external
`typescript-sdk` package, which is not part of this repository's sources;
they are modelled from the spec. -/

/-- Modelled from the spec: `JSONRPCMessageSchema.parse` comes from the
external typescript-sdk, which is not part of this repository.  Per spec
§4.2: the value must be an object, must carry `jsonrpc` equal to the
string `2.0`, and must have either a string `method`
(request/notification) or a `result`/`error` member together with an
`id` (response); an `id`, when present, is a string or a number. -/
def validJSONRPC (j : Json) : Bool :=
  match j with
  | .obj _ =>
    (match j.getField "jsonrpc" with
      | some (.str v) => v = "2.0"
      | _ => false) &&
    (let idOk :=
      match j.getField "id" with
      | none => true
      | some (.str _) => true
      | some (.num _) => true
      | some _ => false
    let hasMethod :=
      match j.getField "method" with
      | some (.str _) => true
      | _ => false
    let hasResultOrError :=
      (j.getField "result").isSome || (j.getField "error").isSome
    idOk && (hasMethod || (hasResultOrError && (j.getField "id").isSome)))
  | _ => false

/-- Serialize a JSON value back to text (no added whitespace), escaping
quotes, backslashes and control characters as `JSON.stringify` does. -/
def jsonEscapeChar (c : Char) : List Char :=
  if c = '"' then ['\\', '"']
  else if c = '\\' then ['\\', '\\']
  else if c = '\n' then ['\\', 'n']
  else if c = '\r' then ['\\', 'r']
  else if c = '\t' then ['\\', 't']
  else if c.toNat < 32 then
    ['\\', 'u', '0', '0',
      (Nat.digitChar (c.toNat / 16)), (Nat.digitChar (c.toNat % 16))]
  else [c]

mutual

/-- `JSON.stringify` for one value. -/
def jsonStringify : Json → String
  | .null => "null"
  | .bool true => "true"
  | .bool false => "false"
  | .num raw => raw
  | .str s => "\"" ++ String.mk (s.toList.flatMap jsonEscapeChar) ++ "\""
  | .arr elems => "[" ++ stringifyList elems ++ "]"
  | .obj fields => "\x7b" ++ stringifyFields fields ++ "\x7d"

/-- Comma-separated serialization of array elements. -/
def stringifyList : List Json → String
  | [] => ""
  | [x] => jsonStringify x
  | x :: xs => jsonStringify x ++ "," ++ stringifyList xs

/-- Comma-separated serialization of object members. -/
def stringifyFields : List (String × Json) → String
  | [] => ""
  | [(k, v)] => "\"" ++ k ++ "\":" ++ jsonStringify v
  | (k, v) :: xs => "\"" ++ k ++ "\":" ++ jsonStringify v ++ "," ++ stringifyFields xs

end

/-- Modelled from the spec: `serializeMessage` of the external
typescript-sdk — "serialize to `<json>\n`". -/
def serializeMessage (msg : Json) : String :=
  jsonStringify msg ++ "\n"

/-! ## Message decoding (`src/mcp/robust-stdio.ts`) -/

/-- `deserializeMessage`: parse one line as JSON, then validate it as a
JSON-RPC message; a thrown `MCPError` is modelled as `Except.error`.
The source guards the parse result with `if (!json)`, a JavaScript
falsiness test, so a line whose parsed value is falsy (`null`, `false`,
a zero number, the empty string) takes the parse-error branch even
though `JSON.parse` succeeded on it. -/
def deserializeMessage (line : String) : Except MCPError Json :=
  match safeJsonParse line with
  | none =>
    .error { code := ErrorCodes.JSON_PARSE_ERROR
             message := "Failed to parse message as JSON"
             context := some "deserializeMessage" }
  | some json =>
    if !json.jsTruthy then
      .error { code := ErrorCodes.JSON_PARSE_ERROR
               message := "Failed to parse message as JSON"
               context := some "deserializeMessage" }
    else if validJSONRPC json then .ok json
    else
      .error { code := ErrorCodes.PROTOCOL_ERROR
               message := "Message is not a valid JSON-RPC message"
               context := some "deserializeMessage"
               originalError := some "schema validation failed" }

/-- The state of a `RobustReadBuffer`: `none` models the JavaScript
`undefined` buffer of a fresh or cleared instance. -/
abbrev ReadBuffer := Option (List Char)

/-- Find the first newline: `buffer.indexOf("\n")` followed by
`toString(0, index)` and `subarray(index + 1)`; `none` when the buffer
holds no newline. -/
def splitAtNewline : List Char → Option (List Char × List Char)
  | [] => none
  | c :: cs =>
    if c = '\n' then some ([], cs)
    else
      match splitAtNewline cs with
      | none => none
      | some (l, r) => some (c :: l, r)

namespace RobustReadBuffer

/-- `append`: concatenate the chunk onto the buffer (`this.buffer =
this.buffer ? Buffer.concat([this.buffer, chunk]) : chunk`). -/
def append (b : ReadBuffer) (chunk : List Char) : ReadBuffer :=
  match b with
  | some buf => some (buf ++ chunk)
  | none => some chunk

/-- `readMessage` with the exception channel explicit: extract the text
before the first newline, drop it and the delimiter from the buffer, and
try `deserializeMessage` on it; the `catch` in the source turns a thrown
`MCPError` into a `null` result, so the error branch of the inner match
re-wraps it as a successful absent result. -/
def readMessageE (b : ReadBuffer) : Except MCPError (Option Json × ReadBuffer) :=
  match b with
  | none => .ok (none, none)
  | some buf =>
    match splitAtNewline buf with
    | none => .ok (none, some buf)
    | some (line, rest) =>
      match deserializeMessage (String.mk line) with
      | .ok msg => .ok (some msg, some rest)
      | .error _ => .ok (none, some rest)

/-- `readMessage` as its callers see it: the internal `catch` means no
error ever escapes, so the error branch below is dead code (proved in
the decoder-totality theorem). -/
def readMessage (b : ReadBuffer) : Option Json × ReadBuffer :=
  match readMessageE b with
  | .ok r => r
  | .error _ => (none, b)

/-- `clear`: `this.buffer = undefined`. -/
def clear (_ : ReadBuffer) : ReadBuffer := none

end RobustReadBuffer

/-! ## Framing algebra

`drain` iterates the buffer's line extraction until no complete line
remains (the spec §8 "repeated `append`+`nextLine`" drain).  `lineSplit`
is the structural specification of the same splitting, used as the
induction-friendly intermediary. -/

/-- The observable contents of a buffer (`undefined` reads as empty). -/
def rbNorm (b : ReadBuffer) : List Char := b.getD []

/-- Per-line decode step of `readMessage`: `deserializeMessage` inside
the `try`/`catch`, giving the message or absent. -/
def decodeLine (l : List Char) : Option Json :=
  match deserializeMessage (String.mk l) with
  | .ok m => some m
  | .error _ => none

/-- Repeated line extraction, fuelled; every extraction consumes at
least the delimiter, so fuel equal to the buffer length suffices. -/
def drainFuel : Nat → ReadBuffer → List (List Char) × ReadBuffer
  | 0, b => ([], b)
  | n + 1, b =>
    match b with
    | none => ([], none)
    | some buf =>
      match splitAtNewline buf with
      | none => ([], some buf)
      | some (l, r) =>
        let p := drainFuel n (some r)
        (l :: p.1, p.2)

/-- Drain every currently complete line from the buffer. -/
def drain (b : ReadBuffer) : List (List Char) × ReadBuffer :=
  drainFuel (rbNorm b).length b

/-- Structural line splitting: the complete lines of a character
sequence and the trailing remainder after the last newline. -/
def lineSplit : List Char → List (List Char) × List Char
  | [] => ([], [])
  | c :: cs =>
    if c = '\n' then
      ([] :: (lineSplit cs).1, (lineSplit cs).2)
    else
      match lineSplit cs with
      | ([], r) => ([], c :: r)
      | (l :: ls, r) => ((c :: l) :: ls, r)

/-- Append the chunks one at a time, draining all complete lines after
each append, and collect the extracted lines in order. -/
def feedChunks : List (List Char) → ReadBuffer → List (List Char) × ReadBuffer
  | [], b => ([], b)
  | c :: cs, b =>
    let p := drain (RobustReadBuffer.append b c)
    let q := feedChunks cs p.2
    (p.1 ++ q.1, q.2)

theorem rbNorm_append (b : ReadBuffer) (c : List Char) :
    rbNorm (RobustReadBuffer.append b c) = rbNorm b ++ c := by
  cases b <;> simp [RobustReadBuffer.append, rbNorm]

theorem lineSplit_of_split_none : ∀ {b : List Char},
    splitAtNewline b = none → lineSplit b = ([], b)
  | [], _ => by simp [lineSplit]
  | c :: cs, h => by
    by_cases hc : c = '\n'
    · simp [splitAtNewline, hc] at h
    · cases hsplit : splitAtNewline cs with
      | none =>
        have ih := lineSplit_of_split_none hsplit
        simp [lineSplit, hc, ih]
      | some p => simp [splitAtNewline, hc, hsplit] at h

theorem lineSplit_of_split_some : ∀ {b l : List Char} {r : List Char},
    splitAtNewline b = some (l, r) →
    lineSplit b = (l :: (lineSplit r).1, (lineSplit r).2)
  | [], _, _, h => by simp [splitAtNewline] at h
  | c :: cs, l, r, h => by
    by_cases hc : c = '\n'
    · simp [splitAtNewline, hc] at h
      obtain ⟨hl, hr⟩ := h
      subst hl; subst hr
      simp [lineSplit, hc]
    · cases hsplit : splitAtNewline cs with
      | none => simp [splitAtNewline, hc, hsplit] at h
      | some p =>
        obtain ⟨l', r'⟩ := p
        simp [splitAtNewline, hc, hsplit] at h
        obtain ⟨hl, hr⟩ := h
        subst hl; subst hr
        have ih := lineSplit_of_split_some hsplit
        simp [lineSplit, hc, ih]

theorem splitAtNewline_length : ∀ {b l : List Char} {r : List Char},
    splitAtNewline b = some (l, r) → b.length = l.length + r.length + 1
  | [], _, _, h => by simp [splitAtNewline] at h
  | c :: cs, l, r, h => by
    by_cases hc : c = '\n'
    · simp [splitAtNewline, hc] at h
      obtain ⟨hl, hr⟩ := h
      subst hl; subst hr
      simp
    · cases hsplit : splitAtNewline cs with
      | none => simp [splitAtNewline, hc, hsplit] at h
      | some p =>
        obtain ⟨l', r'⟩ := p
        simp [splitAtNewline, hc, hsplit] at h
        obtain ⟨hl, hr⟩ := h
        subst hl; subst hr
        have ih := splitAtNewline_length hsplit
        simp [List.length_cons, ih]
        omega

theorem splitAtNewline_lineSplit_snd : ∀ (b : List Char),
    splitAtNewline (lineSplit b).2 = none
  | [] => by simp [lineSplit, splitAtNewline]
  | c :: cs => by
    have ih := splitAtNewline_lineSplit_snd cs
    by_cases hc : c = '\n'
    · simp [lineSplit, hc, ih]
    · cases hls : lineSplit cs with
      | mk ls r =>
        cases ls with
        | nil =>
          simp [lineSplit, hc, hls]
          rw [hls] at ih
          simp at ih
          simp [splitAtNewline, hc, ih]
        | cons l ls' =>
          simp [lineSplit, hc, hls]
          rw [hls] at ih
          simpa using ih

theorem drainFuel_spec : ∀ (n : Nat) (b : ReadBuffer),
    (rbNorm b).length ≤ n →
    (drainFuel n b).1 = (lineSplit (rbNorm b)).1 ∧
    rbNorm (drainFuel n b).2 = (lineSplit (rbNorm b)).2 := by
  intro n
  induction n with
  | zero =>
    intro b h
    match b with
    | none => simp [drainFuel, rbNorm, lineSplit]
    | some buf =>
      have : buf = [] := by
        simpa [rbNorm, List.length_eq_zero] using Nat.le_zero.mp h
      subst this
      simp [drainFuel, rbNorm, lineSplit]
  | succ n ih =>
    intro b h
    match b with
    | none => simp [drainFuel, rbNorm, lineSplit]
    | some buf =>
      cases hsplit : splitAtNewline buf with
      | none =>
        simp [drainFuel, hsplit, rbNorm, lineSplit_of_split_none hsplit]
      | some p =>
        obtain ⟨l, r⟩ := p
        have hlen := splitAtNewline_length hsplit
        have hb : buf.length ≤ n + 1 := by simpa [rbNorm] using h
        have hr : (rbNorm (some r)).length ≤ n := by
          simp only [rbNorm, Option.getD_some]
          omega
        have ihr := ih (some r) hr
        have hnr : rbNorm (some r) = r := rfl
        rw [hnr] at ihr
        have hls := lineSplit_of_split_some hsplit
        constructor
        · simp only [drainFuel, hsplit, rbNorm, Option.getD_some, hls, ihr.1]
        · simp only [drainFuel, hsplit, rbNorm, Option.getD_some, hls] at ihr ⊢
          exact ihr.2

theorem drain_spec (b : ReadBuffer) :
    (drain b).1 = (lineSplit (rbNorm b)).1 ∧
    rbNorm (drain b).2 = (lineSplit (rbNorm b)).2 :=
  drainFuel_spec _ b le_rfl

theorem lineSplit_append : ∀ (a b : List Char),
    lineSplit (a ++ b) =
      ((lineSplit a).1 ++ (lineSplit ((lineSplit a).2 ++ b)).1,
        (lineSplit ((lineSplit a).2 ++ b)).2)
  | [], b => by simp [lineSplit]
  | c :: cs, b => by
    have ih := lineSplit_append cs b
    by_cases hc : c = '\n'
    · subst hc
      simp [lineSplit, ih]
    · cases hls : lineSplit cs with
      | mk ls₁ r₁ =>
        rw [hls] at ih
        cases ls₁ with
        | nil =>
          have e1 : lineSplit (c :: cs) = ([], c :: r₁) := by
            simp [lineSplit, hc, hls]
          rw [List.cons_append, e1]
          simp only [List.nil_append] at ih ⊢
          cases hX : lineSplit (r₁ ++ b) with
          | mk xs xr =>
            rw [hX] at ih
            cases xs with
            | nil => simp [lineSplit, hc, ih, List.cons_append, hX]
            | cons x xs' => simp [lineSplit, hc, ih, List.cons_append, hX]
        | cons l₁ ls₁' =>
          have e1 : lineSplit (c :: cs) = ((c :: l₁) :: ls₁', r₁) := by
            simp [lineSplit, hc, hls]
          rw [List.cons_append, e1]
          simp [lineSplit, hc, ih]

theorem feedChunks_spec : ∀ (chunks : List (List Char)) (b : ReadBuffer),
    splitAtNewline (rbNorm b) = none →
    (feedChunks chunks b).1 = (lineSplit (rbNorm b ++ chunks.flatten)).1 ∧
    rbNorm (feedChunks chunks b).2 = (lineSplit (rbNorm b ++ chunks.flatten)).2
  | [], b, h => by
    simp [feedChunks, lineSplit_of_split_none h]
  | c :: cs, b, h => by
    have hdrain := drain_spec (RobustReadBuffer.append b c)
    rw [rbNorm_append] at hdrain
    have hnoNL : splitAtNewline (rbNorm (drain (RobustReadBuffer.append b c)).2) =
        none := by
      rw [hdrain.2]; exact splitAtNewline_lineSplit_snd _
    have ih := feedChunks_spec cs (drain (RobustReadBuffer.append b c)).2 hnoNL
    rw [hdrain.2] at ih
    have happ := lineSplit_append (rbNorm b ++ c) cs.flatten
    constructor
    · simp only [feedChunks, ih.1, hdrain.1]
      rw [List.flatten_cons, ← List.append_assoc, happ]
    · simp only [feedChunks, ih.2]
      rw [List.flatten_cons, ← List.append_assoc, happ]

/-! ## HTTP transport (`src/mcp/robust-http-transport.ts`)

The environment's nondeterminism (whether a write callback reports an
error, whether `res.end()` throws) is modelled by flags carried on each
client connection; callback invocations (`onmessage`, `onerror`,
`onclose`) are modelled as logs in the transport state. -/

/-- One entry of the transport's `clients` map: the `http.ServerResponse`
sink for that connection. -/
structure ClientConn where
  /-- `res.writableEnded`: the response stream has already ended. -/
  writableEnded : Bool
  /-- `some m`: the next `res.write` invokes its callback with error `m`. -/
  writeError : Option String
  /-- `res.end()` inside `close()` throws (the `catch` then skips the
  `clients.delete` for this entry). -/
  endFails : Bool
  /-- Log of payloads successfully written to this response. -/
  written : List String
  deriving DecidableEq, Repr

/-- The mutable state of one `RobustHttpTransport`, with callback logs. -/
structure TransportState where
  /-- `this.server !== null`. -/
  serverUp : Bool
  /-- `this.clients`, in insertion order. -/
  clients : List (String × ClientConn)
  /-- `this.readBuffer` — note: one buffer per transport, not per client. -/
  readBuffer : ReadBuffer
  /-- Messages delivered to `onmessage`, in order. -/
  messages : List Json
  /-- Errors delivered to `onerror`, in order. -/
  errors : List MCPError
  /-- Number of `onclose` invocations. -/
  oncloseCalls : Nat

/-- A freshly constructed transport: no server, no clients, an
`undefined` read buffer, no callback activity yet. -/
def freshTransport : TransportState :=
  { serverUp := false, clients := [], readBuffer := none, messages := []
    errors := [], oncloseCalls := 0 }

/-- The `while ((message = this.readBuffer.readMessage()) !== null)` loop
of `processInput`: it stops as soon as `readMessage` returns `null`,
whether because the buffer has no complete line left or because the
line it consumed failed to decode. -/
def drainLoop : Nat → ReadBuffer → List Json × ReadBuffer
  | 0, b => ([], b)
  | n + 1, b =>
    match RobustReadBuffer.readMessage b with
    | (none, b2) => ([], b2)
    | (some m, b2) =>
      let p := drainLoop n b2
      (m :: p.1, p.2)

/-- `processInput(data, clientId)`: append the chunk to the transport's
read buffer and run the drain loop, delivering each decoded message to
`onmessage`.  The client id is used only in log text. -/
def processInput (s : TransportState) (data : List Char) (_clientId : String) :
    TransportState :=
  let b := RobustReadBuffer.append s.readBuffer data
  let p := drainLoop ((rbNorm b).length + 1) b
  { s with readBuffer := p.2, messages := s.messages ++ p.1 }

/-- `close()`: resolve immediately when the server is already gone;
otherwise end every client response (an entry whose `end` throws is kept
in the map because the `catch` skips its delete), close the server,
clear the read buffer and invoke `onclose`. -/
def closeT (s : TransportState) : TransportState :=
  if s.serverUp then
    { s with
      serverUp := false
      clients := s.clients.filter (fun p => p.2.endFails)
      readBuffer := RobustReadBuffer.clear s.readBuffer
      oncloseCalls := s.oncloseCalls + 1 }
  else s

/-- The per-client body of `send`: iterate the client map in order; an
ended response is deleted instead of written; an open response gets a
write, whose callback either succeeds or reports an error that becomes a
`TransportError` passed to `onerror`.  Returns the surviving client map,
the errors reported, and the number of writes attempted
(`sendPromises.length`). -/
def sendToClients (serialized : String) :
    List (String × ClientConn) → List (String × ClientConn) × List MCPError × Nat
  | [] => ([], [], 0)
  | (id, c) :: rest =>
    if c.writableEnded then sendToClients serialized rest
    else
      let r := sendToClients serialized rest
      match c.writeError with
      | some m =>
        ((id, c) :: r.1,
          createTransportError
            ("Error sending message to client " ++ id ++ ": " ++ m)
            (some "send") :: r.2.1,
          r.2.2 + 1)
      | none =>
        ((id, { c with written := c.written ++ [serialized] }) :: r.1,
          r.2.1, r.2.2 + 1)

/-- `send(message)`: serialize and broadcast.  With no clients attached
it resolves at once; otherwise the final `Bool` is whether the awaited
`Promise.all` (wrapped in `tryCatch`) resolved, i.e. whether no write
failed. -/
def sendT (s : TransportState) (msg : Json) : TransportState × Nat × Bool :=
  let serialized := serializeMessage msg
  if s.clients.isEmpty then (s, 0, true)
  else
    let r := sendToClients serialized s.clients
    ({ s with clients := r.1, errors := s.errors ++ r.2.1 }, r.2.2, r.2.1.isEmpty)

/-- The connection-established acknowledgement pushed to every new
client: `JSON.stringify(\x7b type, status, clientId \x7d) + "\n"` with the
platform's member order. -/
def welcomeLine (clientId : String) : String :=
  "\x7b\"type\":\"connection\",\"status\":\"established\",\"clientId\":\"" ++
    clientId ++ "\"\x7d\n"

/-- One incoming HTTP request as the server's request listener sees it:
its method and path, its body (empty when absent), and the id
`Math.random` assigns to the new connection. -/
structure ReqEvent where
  method : String
  path : String
  body : List Char
  newClientId : String

/-- The request listener installed by `createServer`: for every request
— any method, any path — set the streaming headers, add the response to
the client map, write the welcome line; then, only for a `POST` with a
non-empty body, feed the body through `processInput`. -/
def handleRequest (s : TransportState) (e : ReqEvent) : TransportState :=
  let conn : ClientConn :=
    { writableEnded := false, writeError := none, endFails := false
      written := [welcomeLine e.newClientId] }
  let s1 := { s with clients := s.clients ++ [(e.newClientId, conn)] }
  if e.method = "POST" && !e.body.isEmpty then
    processInput s1 e.body e.newClientId
  else s1

/-- `createServer(port, host)`: a failure to bind the listening endpoint
fires the server's `error` handler, which rejects the returned promise
with that error; on a successful bind the promise resolves and the
subsequent requests are handled by the request listener, whose failures
are all absorbed locally. -/
def createServer (s : TransportState) (bindError : Option String)
    (requests : List ReqEvent) : Except String TransportState :=
  match bindError with
  | some e => .error e
  | none => .ok (requests.foldl handleRequest { s with serverUp := true })

/-! ## Helper lemmas for the claim theorems -/

/-- Clients as `broadcast` leaves them when every write succeeds: ended
entries pruned, every open entry written. -/
def deliverAll (serialized : String) (l : List (String × ClientConn)) :
    List (String × ClientConn) :=
  (l.filter (fun p => !p.2.writableEnded)).map
    (fun p => (p.1, { p.2 with written := p.2.written ++ [serialized] }))

theorem sendToClients_all_ok (serialized : String) :
    ∀ l : List (String × ClientConn),
      (∀ p ∈ l, p.2.writableEnded = false → p.2.writeError = none) →
      (sendToClients serialized l).1 = deliverAll serialized l ∧
      (sendToClients serialized l).2.1 = []
  | [], _ => ⟨rfl, rfl⟩
  | (id, c) :: rest, h => by
    have hrest := sendToClients_all_ok serialized rest
      (fun p hp => h p (List.mem_cons_of_mem _ hp))
    cases hend : c.writableEnded with
    | true =>
      constructor
      · simp [sendToClients, hend, deliverAll, List.filter_cons]
        have := hrest.1
        simp [deliverAll] at this
        exact this
      · simp [sendToClients, hend, hrest.2]
    | false =>
      have hw : c.writeError = none := h (id, c) (List.mem_cons_self _ _) hend
      constructor
      · simp [sendToClients, hend, hw, deliverAll, List.filter_cons]
        have := hrest.1
        simp [deliverAll] at this
        exact this
      · simp [sendToClients, hend, hw, hrest.2]

theorem sendToClients_one_fail (serialized : String) (fid : String)
    (fc : ClientConn) (m : String)
    (hopen : fc.writableEnded = false) (hfail : fc.writeError = some m) :
    ∀ (pre post : List (String × ClientConn)),
      (∀ p ∈ pre ++ post, p.2.writableEnded = false → p.2.writeError = none) →
      (sendToClients serialized (pre ++ (fid, fc) :: post)).1 =
        deliverAll serialized pre ++ (fid, fc) :: deliverAll serialized post ∧
      (sendToClients serialized (pre ++ (fid, fc) :: post)).2.1 =
        [createTransportError
          ("Error sending message to client " ++ fid ++ ": " ++ m)
          (some "send")]
  | [], post, h => by
    have hpost := sendToClients_all_ok serialized post (by simpa using h)
    constructor
    · simp [sendToClients, hopen, hfail, hpost.1, deliverAll]
    · simp [sendToClients, hopen, hfail, hpost.2]
  | (id, c) :: pre, post, h => by
    have hih := sendToClients_one_fail serialized fid fc m hopen hfail pre post
      (fun p hp => h p (by simpa using Or.inr (by simpa using hp)))
    cases hend : c.writableEnded with
    | true =>
      constructor
      · simp [sendToClients, hend, deliverAll, List.filter_cons]
        have := hih.1
        simp [deliverAll] at this
        exact this
      · simp [sendToClients, hend, hih.2]
    | false =>
      have hw : c.writeError = none :=
        h (id, c) (by simp) hend
      constructor
      · simp [sendToClients, hend, hw, deliverAll, List.filter_cons]
        have := hih.1
        simp [deliverAll] at this
        exact this
      · simp [sendToClients, hend, hw, hih.2]

theorem closeT_fixed (s : TransportState) : closeT (closeT s) = closeT s := by
  by_cases h : s.serverUp
  · simp [closeT, h]
  · simp [closeT, h]

theorem splitAtNewline_append_newline :
    ∀ (l : List Char), '\n' ∉ l → splitAtNewline (l ++ ['\n']) = some (l, [])
  | [], _ => by simp [splitAtNewline]
  | c :: cs, h => by
    have hc : c ≠ '\n' := fun hc => h (hc ▸ List.mem_cons_self _ _)
    have ih := splitAtNewline_append_newline cs (fun hm => h (List.mem_cons_of_mem _ hm))
    simp [splitAtNewline, hc, ih]

/-! ## Claim theorems -/

/-- C2 (confirmed): chunking invariance — for every list of chunks,
appending them one at a time and draining after each append yields
exactly the same ordered sequence of extracted lines, the same
observable remainder, and hence the same ordered decode results, as
appending the concatenated whole and draining once. -/
theorem chunking_invariance (chunks : List (List Char)) :
    (feedChunks chunks none).1 =
      (drain (RobustReadBuffer.append none chunks.flatten)).1 ∧
    rbNorm (feedChunks chunks none).2 =
      rbNorm (drain (RobustReadBuffer.append none chunks.flatten)).2 ∧
    (feedChunks chunks none).1.map decodeLine =
      ((drain (RobustReadBuffer.append none chunks.flatten)).1).map decodeLine := by
  have hfeed := feedChunks_spec chunks none rfl
  have hwhole := drain_spec (RobustReadBuffer.append none chunks.flatten)
  rw [rbNorm_append] at hwhole
  have hnil : rbNorm (none : ReadBuffer) = [] := rfl
  rw [hnil, List.nil_append] at hfeed hwhole
  refine ⟨hfeed.1.trans hwhole.1.symm, hfeed.2.trans hwhole.2.symm, ?_⟩
  rw [hfeed.1.trans hwhole.1.symm]

/-- C4 (confirmed): the decoder is total — `readMessage` never lets an
exception reach its caller (its exception channel is always `ok`,
returning a decoded message or absent), and every decode failure raised
inside it is classified with one of the two decode error kinds. -/
theorem decoder_totality :
    (∀ b : ReadBuffer, (RobustReadBuffer.readMessageE b).isOk = true) ∧
    (∀ line : String,
      match deserializeMessage line with
      | .ok _ => True
      | .error err =>
        err.code = ErrorCodes.JSON_PARSE_ERROR ∨
        err.code = ErrorCodes.PROTOCOL_ERROR) := by
  constructor
  · intro b
    unfold RobustReadBuffer.readMessageE
    cases b with
    | none => rfl
    | some buf =>
      cases h : splitAtNewline buf with
      | none => simp [h, Except.isOk, Except.toBool]
      | some p =>
        obtain ⟨line, rest⟩ := p
        cases hd : deserializeMessage (String.mk line) <;>
          simp [h, hd, Except.isOk, Except.toBool]
  · intro line
    unfold deserializeMessage
    cases h : safeJsonParse line with
    | none => exact Or.inl rfl
    | some j =>
      cases htr : j.jsTruthy with
      | false => simp [htr]
      | true =>
        cases hv : validJSONRPC j with
        | false => simp [htr, hv]
        | true => simp [htr, hv]

/-- C7 (confirmed): `close()` is idempotent and reachable from every
transport state — any number of repeated `close()` calls has the same
effect as one, completing without error — and `onclose` is invoked by
it exactly once when a server is up and never when the transport is
already closed or was never started. -/
theorem close_idempotent_onclose_once (s : TransportState) (n : Nat) :
    closeT^[n + 1] s = closeT s ∧
    (closeT s).oncloseCalls = s.oncloseCalls + (if s.serverUp then 1 else 0) := by
  constructor
  · induction n with
    | zero => rfl
    | succ k ih => rw [Function.iterate_succ_apply', ih, closeT_fixed]
  · by_cases h : s.serverUp
    · simp [closeT, h]
    · simp [closeT, h]

/-- C8 (confirmed): a failure to bind the listening endpoint is the one
failure mode surfaced as a rejection to the caller of `createServer` —
the promise rejects with exactly the bind error, and with a successful
bind it resolves no matter what the subsequently handled requests
contain. -/
theorem startup_bind_failure_rejects (s : TransportState) (e : String)
    (reqs : List ReqEvent) :
    createServer s (some e) reqs = .error e ∧
    (createServer s none reqs).isOk = true :=
  ⟨rfl, rfl⟩

/-- C9 (confirmed): sending with zero registered clients is a valid,
non-error outcome — the operation resolves, attempts zero writes,
reports no error, and leaves the state untouched. -/
theorem send_zero_clients_ok (msg : Json) (sUp : Bool) (rb : ReadBuffer)
    (msgs : List Json) (errs : List MCPError) (k : Nat) :
    sendT ⟨sUp, [], rb, msgs, errs, k⟩ msg =
      (⟨sUp, [], rb, msgs, errs, k⟩, 0, true) :=
  rfl

/-- C10 (confirmed): every incoming request — any method, any path — is
registered in the client map under its fresh client id, with the
connection-established acknowledgement line (carrying that id) as the
first and only write so far; in particular a POST sender is itself a
broadcast recipient while its request is open. -/
theorem every_request_registered (s : TransportState) (e : ReqEvent) :
    (handleRequest s e).clients =
      s.clients ++ [(e.newClientId,
        { writableEnded := false, writeError := none, endFails := false
          written := [welcomeLine e.newClientId] })] := by
  by_cases h : (e.method = "POST" && !e.body.isEmpty) = true
  · simp [handleRequest, h, processInput]
  · simp [handleRequest, h]

/-- C3 (confirmed): when the write to exactly one open sink fails during
a broadcast, every other open sink is still written (ended sinks are
pruned, open ones receive the serialized message) and exactly one
`TransportError` naming the failing connection's id reaches the error
callback. -/
theorem send_failure_isolation (msg : Json) (fid m : String) (fc : ClientConn)
    (pre post : List (String × ClientConn))
    (hopen : fc.writableEnded = false) (hfail : fc.writeError = some m)
    (hok : ∀ p ∈ pre ++ post, p.2.writableEnded = false → p.2.writeError = none)
    (sUp : Bool) (rb : ReadBuffer) (msgs : List Json) (errs : List MCPError)
    (k : Nat) :
    (sendT ⟨sUp, pre ++ (fid, fc) :: post, rb, msgs, errs, k⟩ msg).1.clients =
      deliverAll (serializeMessage msg) pre ++ (fid, fc) ::
        deliverAll (serializeMessage msg) post ∧
    (sendT ⟨sUp, pre ++ (fid, fc) :: post, rb, msgs, errs, k⟩ msg).1.errors =
      errs ++ [createTransportError
        ("Error sending message to client " ++ fid ++ ": " ++ m)
        (some "send")] := by
  have hone := sendToClients_one_fail (serializeMessage msg) fid fc m hopen hfail
    pre post hok
  have hne : (pre ++ (fid, fc) :: post).isEmpty = false := by
    cases pre <;> simp [List.isEmpty]
  constructor
  · simp [sendT, hne, hone.1]
  · simp [sendT, hne, hone.2]

/-- Open, healthy sink used by the broadcast-failure witness. -/
def aliceConn : ClientConn :=
  { writableEnded := false, writeError := none, endFails := false, written := [] }

/-- Open sink whose next write fails, used by the broadcast-failure
witness. -/
def bobConn : ClientConn :=
  { writableEnded := false, writeError := some "EPIPE", endFails := false
    written := [] }

/-- A concrete valid JSON-RPC response message. -/
def testMsg : Json :=
  .obj [("jsonrpc", .str "2.0"), ("result", .obj []), ("id", .num "1")]

theorem send_failure_isolation_witness :
    (sendT ⟨false, [("alice", aliceConn), ("bob", bobConn)], none, [], [], 0⟩
        testMsg).1.clients =
      deliverAll (serializeMessage testMsg) [("alice", aliceConn)] ++
        ("bob", bobConn) :: deliverAll (serializeMessage testMsg) [] ∧
    (sendT ⟨false, [("alice", aliceConn), ("bob", bobConn)], none, [], [], 0⟩
        testMsg).1.errors =
      [] ++ [createTransportError
        ("Error sending message to client " ++ "bob" ++ ": " ++ "EPIPE")
        (some "send")] :=
  send_failure_isolation testMsg "bob" "EPIPE" bobConn [("alice", aliceConn)] []
    rfl rfl (by decide) false none [] [] 0

/-- C1 counterexample: the transport's read buffer is shared, so a
partial line fed by `clientA` is completed by bytes fed by `clientB` and
the combined line decodes to a message — impossible if each connection
had its own buffer. -/
theorem c1_counterexample :
    (processInput freshTransport
        ("\x7b\"jsonrpc\":\"2.0\",\"method").toList "clientA").messages = [] ∧
    ((processInput (processInput freshTransport
          ("\x7b\"jsonrpc\":\"2.0\",\"method").toList "clientA")
        ("\":\"test\",\"id\":1\x7d\n").toList "clientB").messages.map
      (fun msg => msg.getField "method")) = [some (Json.str "test")] :=
  ⟨rfl, rfl⟩

/-- C1 (corrected, amended): the transport allocates one read buffer at
construction and shares it across all connections — `processInput`'s
result is independent of which client the bytes came from, and its
framing depends only on the shared buffer contents and the data, so a
partial line from one client is completed by bytes from another. -/
theorem shared_read_buffer_across_connections :
    (∀ (s : TransportState) (data : List Char) (c₁ c₂ : String),
      processInput s data c₁ = processInput s data c₂) ∧
    (∀ (s s' : TransportState) (data : List Char) (c c' : String),
      s.readBuffer = s'.readBuffer →
      (processInput s data c).readBuffer = (processInput s' data c').readBuffer) := by
  constructor
  · intro s data c₁ c₂
    rfl
  · intro s s' data c c' h
    simp only [processInput]
    rw [h]

theorem shared_read_buffer_across_connections_witness :
    (processInput freshTransport ['h', 'i'] "clientA").readBuffer =
      (processInput { freshTransport with serverUp := true, oncloseCalls := 5 }
        ['h', 'i'] "clientB").readBuffer :=
  shared_read_buffer_across_connections.2 freshTransport
    { freshTransport with serverUp := true, oncloseCalls := 5 }
    ['h', 'i'] "clientA" "clientB" rfl

/-- C5 counterexample: the line `false` parses as syntactically valid
JSON and fails protocol-shape validation, yet the decode step classifies
it as a `JSON_PARSE_ERROR` (parse error), not a protocol error — the
source's `if (!json)` guard treats every falsy parse result as a parse
failure. -/
theorem c5_counterexample :
    safeJsonParse "false" = some (Json.bool false) ∧
    validJSONRPC (Json.bool false) = false ∧
    deserializeMessage "false" =
      .error { code := ErrorCodes.JSON_PARSE_ERROR
               message := "Failed to parse message as JSON"
               context := some "deserializeMessage" } ∧
    ErrorCodes.JSON_PARSE_ERROR ≠ ErrorCodes.PROTOCOL_ERROR :=
  ⟨rfl, rfl, rfl, by decide⟩

/-- C5 (corrected, amended): for every newline-free line whose JSON
parse succeeds with a truthy value but which fails protocol-shape
validation, the decode step classifies the failure as a protocol error
(`PROTOCOL_ERROR`), a kind distinct from the parse-error kind, and
returns absent; lines parsing to falsy JSON (`null`, `false`, numbers
whose float64 value is zero — including underflowing literals such as
`1e-324` — and the empty string) are excluded because the falsy guard
misclassifies them as parse errors. -/
theorem validation_error_classification (line : String) (j : Json)
    (hparse : safeJsonParse line = some j) (htruthy : j.jsTruthy = true)
    (hinvalid : validJSONRPC j = false) (hnl : '\n' ∉ line.toList) :
    deserializeMessage line =
      .error { code := ErrorCodes.PROTOCOL_ERROR
               message := "Message is not a valid JSON-RPC message"
               context := some "deserializeMessage"
               originalError := some "schema validation failed" } ∧
    ErrorCodes.PROTOCOL_ERROR ≠ ErrorCodes.JSON_PARSE_ERROR ∧
    (RobustReadBuffer.readMessage (some (line.toList ++ ['\n']))).1 = none := by
  have hdes : deserializeMessage line =
      .error { code := ErrorCodes.PROTOCOL_ERROR
               message := "Message is not a valid JSON-RPC message"
               context := some "deserializeMessage"
               originalError := some "schema validation failed" } := by
    unfold deserializeMessage
    rw [hparse]
    simp [htruthy, hinvalid]
  refine ⟨hdes, by decide, ?_⟩
  have hsplit : splitAtNewline (line.data ++ ['\n']) = some (line.data, []) :=
    splitAtNewline_append_newline line.toList hnl
  have hdes' : deserializeMessage (String.mk line.data) =
      .error { code := ErrorCodes.PROTOCOL_ERROR
               message := "Message is not a valid JSON-RPC message"
               context := some "deserializeMessage"
               originalError := some "schema validation failed" } := hdes
  simp [RobustReadBuffer.readMessage, RobustReadBuffer.readMessageE, hsplit,
    hdes']

theorem validation_error_classification_witness :
    deserializeMessage "\x7b\x7d" =
      .error { code := ErrorCodes.PROTOCOL_ERROR
               message := "Message is not a valid JSON-RPC message"
               context := some "deserializeMessage"
               originalError := some "schema validation failed" } ∧
    ErrorCodes.PROTOCOL_ERROR ≠ ErrorCodes.JSON_PARSE_ERROR ∧
    (RobustReadBuffer.readMessage (some (("\x7b\x7d" : String).toList ++ ['\n']))).1 =
      none :=
  validation_error_classification "\x7b\x7d" (Json.obj []) rfl rfl rfl (by decide)

/-- The interleaved three-line input of C6: a valid `test1` request, a
non-JSON line, a valid `test2` request. -/
def c6Stream : String :=
  "\x7b\"jsonrpc\":\"2.0\",\"method\":\"test1\",\"id\":1\x7d\nThis is not JSON\n\x7b\"jsonrpc\":\"2.0\",\"method\":\"test2\",\"id\":2\x7d\n"

/-- C6 (code bug): three successive `readMessage` calls on the
interleaved stream do yield `test1`, absent, `test2` in order; but
`processInput`'s drain loop uses the absent result as its termination
condition, so on this same stream it delivers only `test1` to
`onmessage` and leaves the already-complete `test2` line sitting in the
buffer — the bad middle line does terminate the decode loop for the
following line, contrary to the spec's contract. -/
theorem c6_decode_loop_stops_at_bad_line :
    ((RobustReadBuffer.readMessage (some c6Stream.toList)).1.map
        (fun msg => msg.getField "method") = some (some (Json.str "test1")) ∧
      (RobustReadBuffer.readMessage
          (RobustReadBuffer.readMessage (some c6Stream.toList)).2).1 = none ∧
      (RobustReadBuffer.readMessage
          (RobustReadBuffer.readMessage
            (RobustReadBuffer.readMessage (some c6Stream.toList)).2).2).1.map
        (fun msg => msg.getField "method") = some (some (Json.str "test2"))) ∧
    (processInput freshTransport c6Stream.toList "client").messages.map
      (fun msg => msg.getField "method") = [some (Json.str "test1")] ∧
    (processInput freshTransport c6Stream.toList "client").readBuffer =
      some ("\x7b\"jsonrpc\":\"2.0\",\"method\":\"test2\",\"id\":2\x7d\n").toList :=
  ⟨⟨rfl, rfl, rfl⟩, rfl, rfl⟩

end PostgresMcp
